import Mathlib

/-!
Verification development for the bipelines repository.

Shallow embedding of the deduplication, remote-state reconciliation and
polling logic of the two orchestrator variants (`bipelines` and
`beaker_runner`), together with proofs of the specification claims.

Machine integers are modelled as `Nat` with explicit reduction modulo
`2 ^ 32` where the source's 32-bit arithmetic overflows.  Fallible
operations are modelled with `Except`/`Option`.  Loops whose termination
depends on external state are modelled with explicit fuel.
-/

set_option maxRecDepth 8000

namespace Spec2Proof

/-! ### SHA-256 (FIPS 180-4)

`BipelineConfig.task_hash` and `RunnerConfig.task_hash` call Python's
`hashlib.sha256(...).hexdigest()[:12]`.  We embed SHA-256 executably:
32-bit words are `Nat` values kept below `2 ^ 32` by `w32`. -/

def w32 (n : Nat) : Nat := n % 4294967296

def rotr (n x : Nat) : Nat := w32 ((x >>> n) ||| (x <<< (32 - n)))

def bnot32 (x : Nat) : Nat := 4294967295 ^^^ x

def chf (x y z : Nat) : Nat := (x &&& y) ^^^ (bnot32 x &&& z)

def majf (x y z : Nat) : Nat := (x &&& y) ^^^ (x &&& z) ^^^ (y &&& z)

def bigS0 (x : Nat) : Nat := rotr 2 x ^^^ rotr 13 x ^^^ rotr 22 x

def bigS1 (x : Nat) : Nat := rotr 6 x ^^^ rotr 11 x ^^^ rotr 25 x

def smallS0 (x : Nat) : Nat := rotr 7 x ^^^ rotr 18 x ^^^ (x >>> 3)

def smallS1 (x : Nat) : Nat := rotr 17 x ^^^ rotr 19 x ^^^ (x >>> 10)

/-- The 64 SHA-256 round constants, in decimal. -/
def sha256K : List Nat :=
  [1116352408, 1899447441, 3049323471, 3921009573, 961987163,
   1508970993, 2453635748, 2870763221, 3624381080, 310598401,
   607225278, 1426881987, 1925078388, 2162078206, 2614888103,
   3248222580, 3835390401, 4022224774, 264347078, 604807628,
   770255983, 1249150122, 1555081692, 1996064986, 2554220882,
   2821834349, 2952996808, 3210313671, 3336571891, 3584528711,
   113926993, 338241895, 666307205, 773529912, 1294757372,
   1396182291, 1695183700, 1986661051, 2177026350, 2456956037,
   2730485921, 2820302411, 3259730800, 3345764771, 3516065817,
   3600352804, 4094571909, 275423344, 430227734, 506948616,
   659060556, 883997877, 958139571, 1322822218, 1537002063,
   1747873779, 1955562222, 2024104815, 2227730452, 2361852424,
   2428436474, 2756734187, 3204031479, 3329325298]

/-- The eight SHA-256 initial hash words, in decimal. -/
def sha256H0 : List Nat :=
  [1779033703, 3144134277, 1013904242, 2773480762,
   1359893119, 2600822924, 528734635, 1541459225]

def be64 (n : Nat) : List Nat :=
  [(n >>> 56) % 256, (n >>> 48) % 256, (n >>> 40) % 256, (n >>> 32) % 256,
   (n >>> 24) % 256, (n >>> 16) % 256, (n >>> 8) % 256, n % 256]

/-- Append `0x80`, zero padding, and the 64-bit big-endian bit length, so
that the total length is a multiple of 64 bytes. -/
def padMessage (msg : List Nat) : List Nat :=
  let L := msg.length
  let z := (119 - (L % 64)) % 64
  msg ++ 128 :: (List.replicate z 0 ++ be64 (8 * L))

def toWords : List Nat → List Nat
  | b0 :: b1 :: b2 :: b3 :: rest =>
      ((b0 <<< 24) ||| (b1 <<< 16) ||| (b2 <<< 8) ||| b3) :: toWords rest
  | _ => []

/-- Extend the 16-word block to the 64-word message schedule. -/
def extendW : Nat → List Nat → List Nat
  | 0, w => w
  | fuel + 1, w =>
      let n := w.length
      let x := w32 (smallS1 (w.getD (n - 2) 0) + w.getD (n - 7) 0 +
                    smallS0 (w.getD (n - 15) 0) + w.getD (n - 16) 0)
      extendW fuel (w ++ [x])

def roundStep : List Nat → Nat × Nat → List Nat
  | [a, b, c, d, e, f, g, h], (k, w) =>
      let t1 := w32 (h + bigS1 e + chf e f g + k + w)
      let t2 := w32 (bigS0 a + majf a b c)
      [w32 (t1 + t2), a, b, c, w32 (d + t1), e, f, g]
  | s, _ => s

def processBlock (h : List Nat) (block : List Nat) : List Nat :=
  let w := extendW 48 (toWords block)
  let s := (sha256K.zip w).foldl roundStep h
  List.zipWith (fun x y => w32 (x + y)) h s

def chunksAux : Nat → List Nat → List (List Nat)
  | 0, _ => []
  | _ + 1, [] => []
  | fuel + 1, a :: rest =>
      (a :: rest).take 64 :: chunksAux fuel ((a :: rest).drop 64)

/-- Split into 64-byte blocks (`l.length` is always enough fuel, since every
step consumes at least one element of a nonempty list). -/
def chunks64 (l : List Nat) : List (List Nat) := chunksAux l.length l

def sha256Words (msg : List Nat) : List Nat :=
  (chunks64 (padMessage msg)).foldl processBlock sha256H0

def wordBE4 (x : Nat) : List Nat :=
  [(x >>> 24) % 256, (x >>> 16) % 256, (x >>> 8) % 256, x % 256]

def sha256Bytes (msg : List Nat) : List Nat :=
  ((sha256Words msg).map wordBE4).flatten

def byteHex (b : Nat) : List Char :=
  [Nat.digitChar (b / 16), Nat.digitChar (b % 16)]

/-- Lowercase hexadecimal digest string, as Python's `hexdigest()`. -/
def sha256Hex (msg : List Nat) : String :=
  String.mk ((sha256Bytes msg).map byteHex).flatten

/-- UTF-8 encoding of one code point, as Python's `str.encode()`. -/
def utf8Char (c : Char) : List Nat :=
  let n := c.toNat
  if n < 128 then [n]
  else if n < 2048 then [192 ||| (n >>> 6), 128 ||| (n &&& 63)]
  else if n < 65536 then
    [224 ||| (n >>> 12), 128 ||| ((n >>> 6) &&& 63), 128 ||| (n &&& 63)]
  else
    [240 ||| (n >>> 18), 128 ||| ((n >>> 12) &&& 63),
     128 ||| ((n >>> 6) &&& 63), 128 ||| (n &&& 63)]

def utf8Encode (s : String) : List Nat := (s.data.map utf8Char).flatten

/-- FIPS 180-4 test vector for the empty message. -/
theorem sha256Hex_nil :
    sha256Hex [] =
      "e3b0c44298fc1c149afbf4c8996fb92427ae41e4649b934ca495991b7852b855" := by
  decide

/-- FIPS 180-4 test vector for "abc". -/
theorem sha256Hex_abc :
    sha256Hex (utf8Encode "abc") =
      "ba7816bf8f01cfea414140de5dae2223b00361a396177a9cb410ff61f20015ad" := by
  decide

/-! ### Configuration (src/bipelines/config.py and src/beaker_runner/config.py)

Only the fields the verified logic reads are modelled; YAML loading and
the setup-script builder are out of scope for the claims. -/

structure CommandConfig where
  command : String
  lib : Option String := none
  raw : Bool := false

structure BipelineConfig where
  commands : List CommandConfig
  workspace : Option String := none
  run_hash : String := ""
  local_env_dir : String := ".bipelines"
  state_dir : Option String := none
  dry_run : Bool := false

/-- `BipelineConfig.task_hash`: deterministic dedup hash of
`f"{cmd.command}|{self.run_hash}"`, first 12 hex digits of SHA-256. -/
def BipelineConfig.task_hash (cfg : BipelineConfig) (cmd : CommandConfig) : String :=
  (sha256Hex (utf8Encode (cmd.command ++ "|" ++ cfg.run_hash))).take 12

structure RunnerConfig where
  commands : List String
  workspace : String := "ai2/adaptability"
  run_hash : String := ""
  /-- the `experiment_pr…fix` field of the source config (name stem) -/
  namePfx : String := "beaker-runner"
  description : String := "beaker-runner sequential task"
  state_dir : Option String := none
  dry_run : Bool := false

/-- `RunnerConfig.task_hash`: deterministic dedup hash of
`f"{command}|{self.run_hash}"`, first 12 hex digits of SHA-256. -/
def RunnerConfig.task_hash (cfg : RunnerConfig) (command : String) : String :=
  (sha256Hex (utf8Encode (command ++ "|" ++ cfg.run_hash))).take 12

/-- `RunnerConfig.experiment_name`. -/
def RunnerConfig.experiment_name (cfg : RunnerConfig) (command : String) : String :=
  cfg.namePfx ++ "-" ++ cfg.task_hash command

/-- C1: in both configurations the task identity is the first 12 hex
characters of SHA-256 of `command ++ "|" ++ salt`, and it is a pure
function of `(command, salt)` alone — identical across repeated calls,
across config variants, and independent of every other config field. -/
theorem c1_task_hash_sha256_first12_deterministic :
    ∀ (bc bc' : BipelineConfig) (rc rc' : RunnerConfig)
      (cmd cmd' : CommandConfig) (c : String),
      bc.task_hash cmd
          = (sha256Hex (utf8Encode (cmd.command ++ "|" ++ bc.run_hash))).take 12
      ∧ rc.task_hash c
          = (sha256Hex (utf8Encode (c ++ "|" ++ rc.run_hash))).take 12
      ∧ (bc.run_hash = bc'.run_hash → cmd.command = cmd'.command →
          bc.task_hash cmd = bc'.task_hash cmd')
      ∧ (rc.run_hash = rc'.run_hash → rc.task_hash c = rc'.task_hash c)
      ∧ (bc.run_hash = rc.run_hash → cmd.command = c →
          bc.task_hash cmd = rc.task_hash c) := by
  intro bc bc' rc rc' cmd cmd' c
  refine ⟨rfl, rfl, ?_, ?_, ?_⟩
  · intro hs hc
    simp [BipelineConfig.task_hash, hs, hc]
  · intro hs
    simp [RunnerConfig.task_hash, hs]
  · intro hs hc
    simp [BipelineConfig.task_hash, RunnerConfig.task_hash, hs, hc]

/-- Witness for C1 at a concrete input: the two config variants agree on
the hash of `echo hi` with salt `salt`, with all hypotheses discharged. -/
theorem c1_task_hash_sha256_first12_deterministic_witness :
    ({ commands := [], run_hash := "salt" } : BipelineConfig).task_hash
        { command := "echo hi" }
      = ({ commands := [], run_hash := "salt" } : RunnerConfig).task_hash
        "echo hi" :=
  (c1_task_hash_sha256_first12_deterministic
      { commands := [], run_hash := "salt" }
      { commands := [], run_hash := "salt" }
      { commands := [], run_hash := "salt" }
      { commands := [], run_hash := "salt" }
      { command := "echo hi" } { command := "echo hi" }
      "echo hi").2.2.2.2 rfl rfl

/-! ### Hash-tag parsing and re-tagging (src/bipelines/bipeline.py)

`HASH_TAG_RE = re.compile(r"\(bipelines:([a-f0-9]+)\)\s*")`.
`_parse_hash_tag` uses `HASH_TAG_RE.match` (anchored at the start);
`_tag_experiment` uses `HASH_TAG_RE.sub(..., count=1)` (leftmost
occurrence anywhere).  We model the regex character classes on ASCII
(`\s` additionally matches rare Unicode whitespace, which no claim
exercises). -/

def isHexTag (c : Char) : Bool := ('a' ≤ c && c ≤ 'f') || ('0' ≤ c && c ≤ '9')

def isPySpace (c : Char) : Bool :=
  c = ' ' || c = '\t' || c = '\n' || c = '\r' || c = '\x0b' || c = '\x0c'

def literalTag : List Char := "(bipelines:".data

/-- Strip an expected literal from the front, or fail. -/
def stripLiteral : List Char → List Char → Option (List Char)
  | [], rest => some rest
  | _, [] => none
  | p :: ps, c :: cs => if c = p then stripLiteral ps cs else none

/-- Match `\(bipelines:([a-f0-9]+)\)\s*` at the head of `l`; on success
return the captured hex group and the remainder after the match. -/
def matchTagAt (l : List Char) : Option (List Char × List Char) :=
  match stripLiteral literalTag l with
  | none => none
  | some rest =>
      let hex := rest.takeWhile isHexTag
      if hex = [] then none
      else
        match rest.dropWhile isHexTag with
        | ')' :: rest3 => some (hex, rest3.dropWhile isPySpace)
        | _ => none

/-- `_parse_hash_tag`: anchored match, returning the captured hash. -/
def _parse_hash_tag (description : String) : Option String :=
  match matchTagAt description.data with
  | some (hex, _) => some (String.mk hex)
  | none => none

/-- `HASH_TAG_RE.sub("", current_desc, count=1)`: remove the leftmost
match of the tag pattern, if any. -/
def removeFirstTag : List Char → List Char
  | [] => []
  | c :: cs =>
      match matchTagAt (c :: cs) with
      | some (_, rest) => rest
      | none => c :: removeFirstTag cs

/-- Python `str.rstrip()`. -/
def pyRstrip (s : String) : String :=
  String.mk (s.data.reverse.dropWhile isPySpace).reverse

/-- The description `_tag_experiment` computes before deciding whether
to write: `f"(bipelines:{task_hash}) {original}".rstrip()`. -/
def _tag_experiment_desc (task_hash current : String) : String :=
  pyRstrip ("(bipelines:" ++ task_hash ++ ") " ++
    String.mk (removeFirstTag current.data))

/-- `_tag_experiment` writes exactly when the recomputed description
differs from the current one (`if new_desc != current_desc`). -/
def _tag_experiment_writes (task_hash current : String) : Bool :=
  _tag_experiment_desc task_hash current != current

/-! ### Experiment naming and dedup lookup (src/beaker_runner/experiment.py)

The experiment lookup is the key set of the `name -> info` dict built by
`list_recent_experiments`; only key membership matters to the naming
logic.  The `while` loops walk retry suffixes `base-1, base-2, …` until
the first absent name; since each step checks a distinct name,
`lookup.length + 1` iterations always reach an absent one, so that fuel
makes the model total without changing its value. -/

def retryName (base : String) (n : Nat) : String := base ++ "-" ++ Nat.repr n

def fmeLoop (lookup : List String) (base : String) :
    Nat → Nat → Option String → Option String
  | 0, _, latest => latest
  | fuel + 1, n, latest =>
      if retryName base n ∈ lookup then
        fmeLoop lookup base fuel (n + 1) (some (retryName base n))
      else latest

/-- `find_matching_experiment`: best matching name for a task hash, or
`none`.  The initial candidate is `base` when present; the retry-suffix
walk then runs from `n = 1` regardless. -/
def find_matching_experiment (lookup : List String) (pfx task_hash : String) :
    Option String :=
  fmeLoop lookup (pfx ++ "-" ++ task_hash) (lookup.length + 1) 1
    (if pfx ++ "-" ++ task_hash ∈ lookup then some (pfx ++ "-" ++ task_hash)
     else none)

def nextLoop (lookup : List String) (base : String) : Nat → Nat → Nat
  | 0, n => n
  | fuel + 1, n =>
      if retryName base n ∈ lookup then nextLoop lookup base fuel (n + 1) else n

/-- `next_experiment_name`: `base` when absent, else the first absent
retry-suffixed name. -/
def next_experiment_name (lookup : List String) (pfx task_hash : String) : String :=
  if pfx ++ "-" ++ task_hash ∈ lookup then
    retryName (pfx ++ "-" ++ task_hash)
      (nextLoop lookup (pfx ++ "-" ++ task_hash) (lookup.length + 1) 1)
  else pfx ++ "-" ++ task_hash

theorem retryName_ne_base (base : String) (n : Nat) : retryName base n ≠ base := by
  intro h
  have h2 := congrArg (fun s => s.data.length) h
  simp only [retryName, String.data_append, List.length_append,
    List.length_singleton] at h2
  omega

theorem retryName_inj (base : String) {a b : Nat}
    (h : retryName base a = retryName base b) : Nat.repr a = Nat.repr b := by
  have h2 := congrArg String.data h
  simp only [retryName, String.data_append, List.append_assoc] at h2
  exact String.ext (List.append_cancel_left (List.append_cancel_left h2))

theorem two_le_length_of_two_mem {α : Type} {l : List α} {a b : α}
    (ha : a ∈ l) (hb : b ∈ l) (hab : a ≠ b) : 2 ≤ l.length := by
  match l with
  | [] => cases ha
  | [x] =>
      rcases List.mem_singleton.mp ha with rfl
      rcases List.mem_singleton.mp hb with rfl
      exact absurd rfl hab
  | x :: y :: t => simp only [List.length]; omega

theorem stripLiteral_pre : ∀ (p rest : List Char), stripLiteral p (p ++ rest) = some rest
  | [], _ => by simp [stripLiteral]
  | c :: cs, rest => by simp [stripLiteral, stripLiteral_pre cs rest]

theorem takeWhile_all_append {p : Char → Bool} :
    ∀ (l : List Char) (x : Char) (t : List Char),
      (∀ c ∈ l, p c = true) → p x = false →
      (l ++ x :: t).takeWhile p = l ∧ (l ++ x :: t).dropWhile p = x :: t
  | [], x, t, _, hx => by
      simp [List.takeWhile_cons, List.dropWhile_cons, hx]
  | c :: cs, x, t, hl, hx => by
      have hc : p c = true := hl c (List.mem_cons_self c cs)
      have ih := takeWhile_all_append cs x t
        (fun d hd => hl d (List.mem_cons_of_mem c hd)) hx
      simp [List.takeWhile_cons, List.dropWhile_cons, hc, ih.1, ih.2]

theorem dropWhile_eq_self_of_head {p : Char → Bool} (l : List Char) (c : Char)
    (hh : l.head? = some c) (hc : p c = false) : l.dropWhile p = l := by
  cases l with
  | nil => rfl
  | cons x t =>
      rw [List.head?_cons, Option.some.injEq] at hh
      subst hh
      simp [List.dropWhile_cons, hc]

theorem pyRstrip_eq_self (s : String) (c : Char) (hl : s.data.getLast? = some c)
    (hc : isPySpace c = false) : pyRstrip s = s := by
  unfold pyRstrip
  have h1 : s.data.reverse.head? = some c := by rw [List.head?_reverse, hl]
  rw [dropWhile_eq_self_of_head s.data.reverse c h1 hc, List.reverse_reverse]

/-- A tagged description `"(bipelines:h) " ++ r` (with `h` nonempty hex
and `r` starting with a non-whitespace character) matches the tag
pattern at its head, capturing `h` and leaving exactly `r`. -/
theorem matchTagAt_tagged (h r : String) (c0 : Char)
    (hne : h.data ≠ []) (hhex : ∀ c ∈ h.data, isHexTag c = true)
    (hhead : r.data.head? = some c0) (hc0 : isPySpace c0 = false) :
    matchTagAt (("(bipelines:" ++ h ++ ") " ++ r).data)
      = some (h.data, r.data) := by
  have hdata : ("(bipelines:" ++ h ++ ") " ++ r).data
      = literalTag ++ (h.data ++ (')' :: ' ' :: r.data)) := by
    simp [String.data_append, List.append_assoc, literalTag]
  have hpar : isHexTag ')' = false := rfl
  have htw := takeWhile_all_append h.data ')' (' ' :: r.data) hhex hpar
  rw [hdata]
  unfold matchTagAt
  rw [stripLiteral_pre]
  simp only [htw.1, htw.2]
  rw [if_neg hne]
  have hsp : (' ' :: r.data).dropWhile isPySpace = r.data := by
    have : isPySpace ' ' = true := rfl
    simp [List.dropWhile_cons, this,
      dropWhile_eq_self_of_head r.data c0 hhead hc0]
  rw [hsp]

theorem removeFirstTag_of_match (l hx r' : List Char)
    (hm : matchTagAt l = some (hx, r')) : removeFirstTag l = r' := by
  cases l with
  | nil =>
      rw [show matchTagAt ([] : List Char) = none from rfl] at hm
      cases hm
  | cons c cs =>
      simp only [removeFirstTag]
      rw [hm]

/-- C6 fails on the code: a description that begins with the current tag
but has two spaces after it is re-normalized (the pattern's `\s*` eats
all whitespace after the tag, and a single space is re-inserted), so
`_tag_experiment` computes a different description and performs a write
even though the description already begins with `"(bipelines:{hash}) "`. -/
theorem c6_counterexample :
    (∃ rest, ("(bipelines:0123456789ab)  done" : String)
        = "(bipelines:0123456789ab) " ++ rest) ∧
    _tag_experiment_writes "0123456789ab" "(bipelines:0123456789ab)  done"
      = true :=
  ⟨⟨" done", by decide⟩, by decide⟩

/-- C6 (amended): re-tagging is idempotent on normalized descriptions:
if the current description is exactly `"(bipelines:" ++ h ++ ") " ++ r`
for the current hash `h` (nonempty lowercase hex) and the remainder `r`
is nonempty, starts with a non-whitespace character and ends with a
non-whitespace character, then `_tag_experiment` recomputes the very
same description and performs no write.  (Extra whitespace right after
the tag, a whitespace-trailing remainder, or an empty remainder all
trigger a write, as the counterexample shows.) -/
theorem c6_amended_retag_idempotent_on_normalized :
    ∀ (h r : String) (c0 c1 : Char),
      h.data ≠ [] → (∀ c ∈ h.data, isHexTag c = true) →
      r.data.head? = some c0 → isPySpace c0 = false →
      r.data.getLast? = some c1 → isPySpace c1 = false →
      _tag_experiment_desc h ("(bipelines:" ++ h ++ ") " ++ r)
          = "(bipelines:" ++ h ++ ") " ++ r
      ∧ _tag_experiment_writes h ("(bipelines:" ++ h ++ ") " ++ r) = false := by
  intro h r c0 c1 hne hhex hhead hc0 hlast hc1
  have hm := matchTagAt_tagged h r c0 hne hhex hhead hc0
  have hrem := removeFirstTag_of_match _ _ _ hm
  have hdesc : _tag_experiment_desc h ("(bipelines:" ++ h ++ ") " ++ r)
      = "(bipelines:" ++ h ++ ") " ++ r := by
    unfold _tag_experiment_desc
    rw [hrem, show String.mk r.data = r from rfl]
    apply pyRstrip_eq_self _ c1 _ hc1
    rw [String.data_append, List.getLast?_append, hlast]
    rfl
  refine ⟨hdesc, ?_⟩
  unfold _tag_experiment_writes
  rw [hdesc]
  exact bne_self_eq_false _

/-- Witness for (amended) C6 at hash `0123456789ab` and remainder `done`. -/
theorem c6_amended_retag_idempotent_on_normalized_witness :
    _tag_experiment_desc "0123456789ab"
        ("(bipelines:" ++ "0123456789ab" ++ ") " ++ "done")
      = "(bipelines:" ++ "0123456789ab" ++ ") " ++ "done"
    ∧ _tag_experiment_writes "0123456789ab"
        ("(bipelines:" ++ "0123456789ab" ++ ") " ++ "done") = false :=
  c6_amended_retag_idempotent_on_normalized "0123456789ab" "done" 'd' 'e'
    (by decide) (by decide) (by decide) (by decide) (by decide) (by decide)

/-- C2 fails on the code: with a lookup holding only the retry-suffixed
name `p-h-1` (base `p-h` absent), `find_matching_experiment` still
reports a match, because its retry-suffix walk runs whether or not the
base name is present. -/
theorem c2_counterexample :
    find_matching_experiment ["p-h-1"] "p" "h" = some "p-h-1" ∧
    ¬ find_matching_experiment ["p-h-1"] "p" "h" = none := by
  decide

/-- C2 (amended): if the base name is absent, `next_experiment_name`
returns the base name itself regardless of retry-suffixed entries; and
`find_matching_experiment` reports no match provided `base-1` is also
absent (a lookup containing `base-1` without `base` still matches). -/
theorem c2_amended_base_absent :
    ∀ (lookup : List String) (pfx task_hash : String),
      (pfx ++ "-" ++ task_hash ∉ lookup →
        next_experiment_name lookup pfx task_hash = pfx ++ "-" ++ task_hash)
      ∧ (pfx ++ "-" ++ task_hash ∉ lookup →
          retryName (pfx ++ "-" ++ task_hash) 1 ∉ lookup →
          find_matching_experiment lookup pfx task_hash = none) := by
  intro lookup pfx task_hash
  constructor
  · intro hb
    simp only [next_experiment_name]
    rw [if_neg hb]
  · intro hb hr
    simp only [find_matching_experiment]
    rw [if_neg hb]
    simp only [fmeLoop]
    rw [if_neg hr]

/-- Witness for (amended) C2: base `p-h` absent from the lookup `["x"]`,
retry names absent too, so the task is new. -/
theorem c2_amended_base_absent_witness :
    next_experiment_name ["x"] "p" "h" = "p" ++ "-" ++ "h" ∧
    find_matching_experiment ["x"] "p" "h" = none :=
  ⟨(c2_amended_base_absent ["x"] "p" "h").1 (by decide),
   (c2_amended_base_absent ["x"] "p" "h").2 (by decide) (by decide)⟩

/-- C5: when the lookup holds exactly `base`, `base-1` and `base-2`,
`next_experiment_name` returns `base-3`, one past the latest existing
attempt (the recorded statuses play no role in name generation). -/
theorem c5_next_name_is_one_past_latest :
    ∀ (lookup : List String) (pfx task_hash : String),
      (∀ x, x ∈ lookup ↔
        (x = pfx ++ "-" ++ task_hash ∨
         x = retryName (pfx ++ "-" ++ task_hash) 1 ∨
         x = retryName (pfx ++ "-" ++ task_hash) 2)) →
      next_experiment_name lookup pfx task_hash
        = retryName (pfx ++ "-" ++ task_hash) 3 := by
  intro lookup pfx task_hash hmem
  have hb : pfx ++ "-" ++ task_hash ∈ lookup := (hmem _).mpr (Or.inl rfl)
  have h1 : retryName (pfx ++ "-" ++ task_hash) 1 ∈ lookup :=
    (hmem _).mpr (Or.inr (Or.inl rfl))
  have h2 : retryName (pfx ++ "-" ++ task_hash) 2 ∈ lookup :=
    (hmem _).mpr (Or.inr (Or.inr rfl))
  have hne : pfx ++ "-" ++ task_hash ≠ retryName (pfx ++ "-" ++ task_hash) 1 :=
    fun h => retryName_ne_base _ 1 h.symm
  have hlen : 2 ≤ lookup.length := two_le_length_of_two_mem hb h1 hne
  have h3 : retryName (pfx ++ "-" ++ task_hash) 3 ∉ lookup := by
    intro hmem3
    rcases (hmem _).mp hmem3 with h | h | h
    · exact retryName_ne_base _ 3 h
    · exact absurd (retryName_inj _ h) (by decide)
    · exact absurd (retryName_inj _ h) (by decide)
  obtain ⟨k, hk⟩ : ∃ k, lookup.length + 1 = k + 1 + 1 + 1 :=
    ⟨lookup.length - 2, by omega⟩
  simp only [next_experiment_name]
  rw [if_pos hb, hk]
  simp only [nextLoop]
  rw [if_pos h1, if_pos h2, if_neg h3]

/-- Witness for C5 at the concrete lookup `["p-h", "p-h-1", "p-h-2"]`. -/
theorem c5_next_name_is_one_past_latest_witness :
    next_experiment_name ["p-h", "p-h-1", "p-h-2"] "p" "h"
      = retryName ("p" ++ "-" ++ "h") 3 := by
  apply c5_next_name_is_one_past_latest
  intro x
  simp only [show ("p" ++ "-" ++ "h" : String) = "p-h" from rfl]
  simp only [show retryName "p-h" 1 = "p-h-1" from rfl,
    show retryName "p-h" 2 = "p-h-2" from rfl]
  simp only [List.mem_cons, List.not_mem_nil, or_false]

/-! ### Job statuses

Both variants use the status strings
`pending / running / completed / failed / canceled / unknown`;
`("completed", "failed", "canceled")` is the terminal set checked by the
polling loops. -/

def terminalStatuses : List String := ["completed", "failed", "canceled"]

/-- The remote backend's workload status enum (external `beaker` /
`beaker_pb2` client), as consumed by the two status maps. -/
inductive BkStatus where
  | unspecified
  | submitted
  | queued
  | initializing
  | ready_to_start
  | running
  | stopping
  | uploading_results
  | succeeded
  | failed
  | canceled
deriving DecidableEq

/-- `STATUS_MAP` of `get_workload_status` (src/beaker_runner/experiment.py):
only four codes are mapped; everything else defaults to `"unknown"`. -/
def STATUS_MAP : List (BkStatus × String) :=
  [(.running, "running"), (.succeeded, "completed"),
   (.failed, "failed"), (.canceled, "canceled")]

def WORKLOAD_STATUS_DISPLAY : List (BkStatus × String) :=
  [(.submitted, "pending"), (.queued, "pending"), (.initializing, "pending"),
   (.ready_to_start, "pending"), (.running, "running"), (.stopping, "running"),
   (.uploading_results, "running"), (.succeeded, "completed"),
   (.failed, "failed"), (.canceled, "canceled")]

def mapGetD (m : List (BkStatus × String)) (s : BkStatus) (dflt : String) : String :=
  match m.find? (fun p => p.1 == s) with
  | some p => p.2
  | none => dflt

/-- `get_workload_status`: `(status_string, job-present)` for a workload;
a workload whose latest job is `None` is reported `"pending"`. -/
def get_workload_status (job : Option BkStatus) : String × Bool :=
  match job with
  | none => ("pending", false)
  | some s => (mapGetD STATUS_MAP s "unknown", true)

/-- Display status used by `Bipeline` for a cached workload record. -/
def displayStatus (s : BkStatus) : String :=
  mapGetD WORKLOAD_STATUS_DISPLAY s "unknown"

/-! ### Polling loops

`wait_for_completion` (src/beaker_runner/experiment.py) and
`Bipeline._wait_for_experiment` (src/bipelines/bipeline.py) poll until a
terminal status.  `statuses k` is the status observed at the `k`-th poll;
the fuel bounds how many polls the model observes (the source loops
indefinitely), and `none` means no terminal status was observed within
the fuel. -/

def wait_for_completion (statuses : Nat → String) : Nat → Nat → Option String
  | 0, _ => none
  | fuel + 1, k =>
      if statuses k ∈ terminalStatuses then some (statuses k)
      else wait_for_completion statuses fuel (k + 1)

/-- `Bipeline._wait_for_experiment`: additionally re-tags every
`retag_every`-th poll and once more when terminal; tag failures are
swallowed inside `_tag_experiment` and never affect the loop.  Returns
the terminal status together with the number of tag attempts. -/
def _wait_for_experiment (statuses : Nat → String) (retag_every : Nat) :
    Nat → Nat → Nat → Option (String × Nat)
  | 0, _, _ => none
  | fuel + 1, polls, tags =>
      if statuses polls ∈ terminalStatuses then some (statuses polls, tags + 1)
      else
        _wait_for_experiment statuses retag_every fuel (polls + 1)
          (if (polls + 1) % retag_every = 0 then tags + 1 else tags)

theorem wait_for_completion_terminal (statuses : Nat → String) :
    ∀ (fuel k : Nat) (s : String),
      wait_for_completion statuses fuel k = some s → s ∈ terminalStatuses := by
  intro fuel
  induction fuel with
  | zero => intro k s h; cases h
  | succ fuel ih =>
      intro k s h
      simp only [wait_for_completion] at h
      by_cases hc : statuses k ∈ terminalStatuses
      · rw [if_pos hc, Option.some.injEq] at h
        exact h ▸ hc
      · rw [if_neg hc] at h
        exact ih (k + 1) s h

theorem wait_for_experiment_terminal (statuses : Nat → String) (retag_every : Nat) :
    ∀ (fuel polls tags : Nat) (s : String) (t : Nat),
      _wait_for_experiment statuses retag_every fuel polls tags = some (s, t) →
      s ∈ terminalStatuses := by
  intro fuel
  induction fuel with
  | zero => intro polls tags s t h; cases h
  | succ fuel ih =>
      intro polls tags s t h
      simp only [_wait_for_experiment] at h
      by_cases hc : statuses polls ∈ terminalStatuses
      · rw [if_pos hc, Option.some.injEq] at h
        have : statuses polls = s := congrArg Prod.fst h
        exact this ▸ hc
      · rw [if_neg hc] at h
        exact ih (polls + 1) _ s t h

/-- C8: neither polling loop ever returns a non-terminal status — a
returned status is one of `completed / failed / canceled`, and
`unknown / pending / running` are outside the terminal set the loops
test, so the loops keep polling through them. -/
theorem c8_polling_returns_only_terminal :
    ∀ (statuses : Nat → String) (fuel k retag_every polls tags : Nat),
      (∀ s, wait_for_completion statuses fuel k = some s →
        s = "completed" ∨ s = "failed" ∨ s = "canceled")
      ∧ (∀ s t, _wait_for_experiment statuses retag_every fuel polls tags
            = some (s, t) → s = "completed" ∨ s = "failed" ∨ s = "canceled")
      ∧ "unknown" ∉ terminalStatuses
      ∧ "pending" ∉ terminalStatuses
      ∧ "running" ∉ terminalStatuses := by
  intro statuses fuel k retag_every polls tags
  refine ⟨?_, ?_, by decide, by decide, by decide⟩
  · intro s h
    have := wait_for_completion_terminal statuses fuel k s h
    simpa [terminalStatuses] using this
  · intro s t h
    have := wait_for_experiment_terminal statuses retag_every fuel polls tags s t h
    simpa [terminalStatuses] using this

/-- Witness for C8: a run that observes `running` twice and then
`completed` returns `completed`, a terminal status, in both loops. -/
theorem c8_polling_returns_only_terminal_witness :
    ("completed" = "completed" ∨ "completed" = "failed" ∨ "completed" = "canceled")
    ∧ ("completed" = "completed" ∨ "completed" = "failed" ∨ "completed" = "canceled") :=
  ⟨(c8_polling_returns_only_terminal
      (fun k => if k < 2 then "running" else "completed") 5 0 4 0 0).1
      "completed" (by decide),
   (c8_polling_returns_only_terminal
      (fun k => if k < 2 then "running" else "completed") 5 0 4 0 0).2.1
      "completed" 1 (by decide)⟩

/-- C10: a workload whose `get_latest_job` is `None` is classified
`"pending"` (not `"unknown"`); `"pending"` is non-terminal, so both the
dedup check and the polling loop treat such an experiment as submitted
but not started — in particular the polling loop never returns while
every poll sees a job-less workload. -/
theorem c10_no_job_is_pending :
    ∀ (jobOf : Nat → Option BkStatus),
      (get_workload_status none).1 = "pending"
      ∧ (get_workload_status none).1 ≠ "unknown"
      ∧ "pending" ∉ terminalStatuses
      ∧ ((∀ k, jobOf k = none) → ∀ fuel k0,
          wait_for_completion (fun k => (get_workload_status (jobOf k)).1)
            fuel k0 = none) := by
  intro jobOf
  refine ⟨rfl, by decide, by decide, ?_⟩
  intro hnone fuel
  induction fuel with
  | zero => intro k0; rfl
  | succ fuel ih =>
      intro k0
      simp only [wait_for_completion]
      rw [hnone k0]
      exact ih (k0 + 1)

/-- Witness for C10: with no job ever appearing, three polls return
nothing and the classification is `pending`. -/
theorem c10_no_job_is_pending_witness :
    wait_for_completion
        (fun k => (get_workload_status ((fun _ => none) k)).1) 3 0 = none :=
  (c10_no_job_is_pending (fun _ => none)).2.2.2 (fun _ => rfl) 3 0

/-! ### Per-task resolution, beaker_runner variant
(src/beaker_runner/runner.py, `Runner._process_task`)

The observable effects of one task's processing: the recorded result,
whether the job URL was printed, whether a fresh experiment was created,
whether the polling wait ran, and the experiment lookup afterwards.
`statusOf` gives the live status `get_workload_status` reports for a
matched name; `waitResult` is the terminal status the polling wait
eventually returns. -/

structure RunnerStep where
  result : String
  urlReported : Bool
  launched : Bool
  polled : Bool
  lookupAfter : List String

/-- The fall-through tail of `_process_task`: dry run, or create the
experiment, print its URL, add it to the in-memory lookup, then wait. -/
def runnerLaunchStep (lookup : List String) (waitResult : String)
    (pfx task_hash : String) (dry_run : Bool) : RunnerStep :=
  if dry_run then ⟨"dry_run", false, false, false, lookup⟩
  else
    ⟨waitResult, true, true, true,
      lookup ++ [next_experiment_name lookup pfx task_hash]⟩

/-- `Runner._process_task`: skip on `completed`, hook on `running`,
otherwise (no match, `failed`, `canceled`, `pending`, `unknown`) fall
through to a fresh launch. -/
def runnerProcessTask (lookup : List String) (statusOf : String → String)
    (waitResult : String) (pfx task_hash : String) (dry_run : Bool) : RunnerStep :=
  match find_matching_experiment lookup pfx task_hash with
  | some name =>
      if statusOf name = "completed" then
        ⟨"completed", false, false, false, lookup⟩
      else if statusOf name = "running" then
        ⟨waitResult, true, false, true, lookup⟩
      else runnerLaunchStep lookup waitResult pfx task_hash dry_run
  | none => runnerLaunchStep lookup waitResult pfx task_hash dry_run

/-! ### Per-task resolution, bipelines variant
(src/bipelines/bipeline.py, `Bipeline._process_task` and
`Bipeline._check_existing_experiment`)

`get_experiment_status` and `run_command_and_capture_experiment` live in
`bipelines/experiment.py`, which is not part of the sources; they enter
the model only through their results (`fresh` / `execOutcome`), which is
all `bipeline.py` consumes. -/

structure CheckOutcome where
  result : Option String
  urlReported : Bool
  polled : Bool

/-- `Bipeline._check_existing_experiment`: `display` is the cached
snapshot status, `fresh` the live re-check (`Except.error` models a
raised exception).  Returns the status to record (`none` = re-run). -/
def _check_existing_experiment (display : String)
    (fresh : Except String String) (waitResult : String) : CheckOutcome :=
  if display = "completed" then ⟨some "completed", true, false⟩
  else
    match fresh with
    | .error _ => ⟨none, false, false⟩
    | .ok status =>
        if status = "completed" then ⟨some "completed", true, false⟩
        else if status = "running" then ⟨some waitResult, true, true⟩
        else ⟨none, false, false⟩

structure BipelineStep where
  result : String
  urlReported : Bool
  executedLocally : Bool
  polled : Bool
  cacheAfter : List (String × String)

/-- Association lookup mirroring `self._workload_cache.get(task_hash)`. -/
def lookupCache : List (String × String) → String → Option String
  | [], _ => none
  | (k, v) :: t, h => if k = h then some v else lookupCache t h

/-- The fall-through tail of `Bipeline._process_task`: dry run, or run
the command locally (`execOutcome` is its captured
`(exp_name, url, exp_id)` or the raised `RuntimeError`), then tag and
wait.  In every branch the cache is returned unchanged: the source never
writes `_workload_cache` during a run. -/
def bipelinesLaunchStep (cache : List (String × String))
    (execOutcome : Except String (String × String × String))
    (waitResult : String) (dry_run : Bool) : BipelineStep :=
  if dry_run then ⟨"dry_run", false, false, false, cache⟩
  else
    match execOutcome with
    | .error _ => ⟨"failed", false, true, false, cache⟩
    | .ok _ => ⟨waitResult, true, true, true, cache⟩

/-- `Bipeline._process_task`. -/
def bipelinesProcessTask (cache : List (String × String))
    (displayOf : String → String) (freshOf : String → Except String String)
    (execOutcome : Except String (String × String × String))
    (waitResult : String) (task_hash : String) (dry_run : Bool) : BipelineStep :=
  match lookupCache cache task_hash with
  | some wl =>
      match _check_existing_experiment (displayOf wl) (freshOf wl) waitResult with
      | ⟨some res, url, polled⟩ => ⟨res, url, false, polled, cache⟩
      | ⟨none, _, _⟩ => bipelinesLaunchStep cache execOutcome waitResult dry_run
  | none => bipelinesLaunchStep cache execOutcome waitResult dry_run

/-- C3 fails on the code: an identity whose matched attempt reports the
non-terminal status `pending` is NOT hooked — the beaker_runner variant
falls through to a fresh launch and the bipelines variant re-runs the
command locally.  Only `running` hooks. -/
theorem c3_counterexample :
    find_matching_experiment ["p-h"] "p" "h" = some "p-h"
    ∧ (runnerProcessTask ["p-h"] (fun _ => "pending") "failed" "p" "h"
        false).launched = true
    ∧ (bipelinesProcessTask [("h", "wl")] (fun _ => "pending")
        (fun _ => Except.ok "pending") (Except.ok ("n", "u", "i")) "failed"
        "h" false).executedLocally = true :=
  ⟨by decide, by decide, by decide⟩

/-- C3 (amended): when the live status observed at resolution time is
`running`, both variants hook — they enter the polling wait on the
existing job and perform no fresh launch or local re-run; when it is
`pending`, both variants instead fall through to a fresh attempt. -/
theorem c3_amended_hook_on_running_only :
    (∀ (lookup : List String) (statusOf : String → String)
        (waitResult pfx task_hash name : String) (dry_run : Bool),
      find_matching_experiment lookup pfx task_hash = some name →
      statusOf name = "running" →
      runnerProcessTask lookup statusOf waitResult pfx task_hash dry_run
        = ⟨waitResult, true, false, true, lookup⟩)
    ∧ (∀ (display waitResult : String), display ≠ "completed" →
        _check_existing_experiment display (Except.ok "running") waitResult
          = ⟨some waitResult, true, true⟩)
    ∧ (∀ (lookup : List String) (statusOf : String → String)
          (waitResult pfx task_hash name : String),
        find_matching_experiment lookup pfx task_hash = some name →
        statusOf name = "pending" →
        runnerProcessTask lookup statusOf waitResult pfx task_hash false
          = runnerLaunchStep lookup waitResult pfx task_hash false)
    ∧ (∀ (display waitResult : String), display ≠ "completed" →
        _check_existing_experiment display (Except.ok "pending") waitResult
          = ⟨none, false, false⟩) := by
  refine ⟨?_, ?_, ?_, ?_⟩
  · intro lookup statusOf waitResult pfx task_hash name dry_run hm hs
    simp [runnerProcessTask, hm, hs]
  · intro display waitResult hd
    simp [_check_existing_experiment, hd]
  · intro lookup statusOf waitResult pfx task_hash name hm hs
    simp [runnerProcessTask, hm, hs]
  · intro display waitResult hd
    simp [_check_existing_experiment, hd]

/-- Witness for (amended) C3: hooking on a concrete `running` match in
both variants. -/
theorem c3_amended_hook_on_running_only_witness :
    runnerProcessTask ["p-h"] (fun _ => "running") "completed" "p" "h" false
      = ⟨"completed", true, false, true, ["p-h"]⟩
    ∧ _check_existing_experiment "running" (Except.ok "running") "completed"
      = ⟨some "completed", true, true⟩ :=
  ⟨c3_amended_hook_on_running_only.1 ["p-h"] (fun _ => "running") "completed"
      "p" "h" "p-h" false (by decide) rfl,
   c3_amended_hook_on_running_only.2.1 "running" "completed" (by decide)⟩

/-- C4 fails on the code: the beaker_runner skip-on-complete branch
records `completed` without executing or polling, but does not report
the job's URL (`_print_url` is never called on that path), unlike the
bipelines variant. -/
theorem c4_counterexample :
    find_matching_experiment ["p-h"] "p" "h" = some "p-h"
    ∧ (runnerProcessTask ["p-h"] (fun _ => "completed") "x" "p" "h"
        false).result = "completed"
    ∧ (runnerProcessTask ["p-h"] (fun _ => "completed") "x" "p" "h"
        false).urlReported = false :=
  ⟨by decide, by decide, by decide⟩

/-- C4 (amended): a `completed` match records a `completed` result with
no execution, no fresh launch and no polling in both variants; the
bipelines variant reports the job's URL on the skip path (from both the
snapshot status and the live re-check), while the beaker_runner skip
branch reports no URL. -/
theorem c4_amended_skip_on_complete :
    (∀ (lookup : List String) (statusOf : String → String)
        (waitResult pfx task_hash name : String) (dry_run : Bool),
      find_matching_experiment lookup pfx task_hash = some name →
      statusOf name = "completed" →
      runnerProcessTask lookup statusOf waitResult pfx task_hash dry_run
        = ⟨"completed", false, false, false, lookup⟩)
    ∧ (∀ (display waitResult : String) (fresh : Except String String),
        display = "completed" →
        _check_existing_experiment display fresh waitResult
          = ⟨some "completed", true, false⟩)
    ∧ (∀ (display waitResult : String), display ≠ "completed" →
        _check_existing_experiment display (Except.ok "completed") waitResult
          = ⟨some "completed", true, false⟩) := by
  refine ⟨?_, ?_, ?_⟩
  · intro lookup statusOf waitResult pfx task_hash name dry_run hm hs
    simp [runnerProcessTask, hm, hs]
  · intro display waitResult fresh hd
    simp [_check_existing_experiment, hd]
  · intro display waitResult hd
    simp [_check_existing_experiment, hd]

/-- Witness for (amended) C4: skipping a concrete completed match in
both variants. -/
theorem c4_amended_skip_on_complete_witness :
    runnerProcessTask ["p-h"] (fun _ => "completed") "x" "p" "h" false
      = ⟨"completed", false, false, false, ["p-h"]⟩
    ∧ _check_existing_experiment "completed" (Except.ok "completed") "x"
      = ⟨some "completed", true, false⟩ :=
  ⟨c4_amended_skip_on_complete.1 ["p-h"] (fun _ => "completed") "x" "p" "h"
      "p-h" false (by decide) rfl,
   c4_amended_skip_on_complete.2.1 "completed" "x" (Except.ok "completed") rfl⟩

/-! ### Remote state index construction

`Bipeline._build_workload_cache` (tag scan, src/bipelines/bipeline.py)
wraps its backend listing in `try/except`; `list_recent_experiments`
(name scan, src/beaker_runner/experiment.py) has no handler, so a
listing error propagates to the caller.  `listing` models the backend
call's outcome. -/

structure WorkloadRec where
  description : String
  id : String

/-- The tag-scan fold: first-seen-wins per parsed hash. -/
def buildTagCache : List WorkloadRec → List (String × String) →
    List (String × String)
  | [], acc => acc
  | w :: ws, acc =>
      match _parse_hash_tag w.description with
      | some h =>
          if lookupCache acc h = none then buildTagCache ws (acc ++ [(h, w.id)])
          else buildTagCache ws acc
      | none => buildTagCache ws acc

/-- `Bipeline._build_workload_cache`: `(cache, warned)`. -/
def _build_workload_cache (workspace : Option String)
    (listing : Except String (List WorkloadRec)) :
    List (String × String) × Bool :=
  match workspace with
  | none => ([], false)
  | some _ =>
      match listing with
      | .error _ => ([], true)
      | .ok ws => (buildTagCache ws [], false)

/-- `list_recent_experiments`: builds the `name -> info` lookup (here
its key list); an error from the backend listing is not caught. -/
def list_recent_experiments (listing : Except String (List (Option String))) :
    Except String (List String) :=
  match listing with
  | .error e => .error e
  | .ok ws =>
      .ok (ws.foldl
        (fun acc n => match n with | some name => acc ++ [name] | none => acc)
        [])

/-- C7 fails on the code: the beaker_runner (name-convention) variant
has no handler around its listing call, so a listing failure propagates
— it does not degrade to an empty index. -/
theorem c7_counterexample :
    list_recent_experiments (Except.error "connection failed")
        = Except.error "connection failed"
    ∧ list_recent_experiments (Except.error "connection failed")
        ≠ Except.ok [] :=
  ⟨rfl, fun h => Except.noConfusion h⟩

/-- C7 (amended): the bipelines (tag-scan) variant degrades a listing
failure to an empty index plus a warning and the run continues; the
beaker_runner (name-convention) variant propagates the error. -/
theorem c7_amended_listing_failure_handling :
    ∀ (w e : String),
      _build_workload_cache (some w) (Except.error e) = ([], true)
      ∧ _build_workload_cache none (Except.error e) = ([], false)
      ∧ list_recent_experiments (Except.error e) = Except.error e := by
  intro w e
  exact ⟨rfl, rfl, rfl⟩

theorem fmeLoop_isSome_of_some (lookup : List String) (base : String) :
    ∀ (fuel n : Nat) (x : String),
      (fmeLoop lookup base fuel n (some x)).isSome = true := by
  intro fuel
  induction fuel with
  | zero => intro n x; rfl
  | succ fuel ih =>
      intro n x
      simp only [fmeLoop]
      by_cases hc : retryName base n ∈ lookup
      · rw [if_pos hc]; exact ih (n + 1) (retryName base n)
      · rw [if_neg hc]; rfl

theorem find_matching_isSome_of_base_mem (lookup : List String)
    (pfx task_hash : String) (hb : pfx ++ "-" ++ task_hash ∈ lookup) :
    (find_matching_experiment lookup pfx task_hash).isSome = true := by
  simp only [find_matching_experiment]
  rw [if_pos hb]
  exact fmeLoop_isSome_of_some lookup _ _ 1 _

theorem base_mem_after_launch (lookup : List String) (pfx task_hash : String) :
    pfx ++ "-" ++ task_hash
      ∈ lookup ++ [next_experiment_name lookup pfx task_hash] := by
  by_cases hb : pfx ++ "-" ++ task_hash ∈ lookup
  · exact List.mem_append_left _ hb
  · simp only [next_experiment_name]
    rw [if_neg hb]
    exact List.mem_append_right _ (List.mem_singleton.mpr rfl)

/-- C9 fails on the code for the bipelines variant: `_process_task`
never writes `_workload_cache`, so after a fresh local launch the cache
is unchanged and a later task with the same identity executes the
command again instead of resolving against the launched job. -/
theorem c9_counterexample :
    (bipelinesProcessTask [] (fun _ => "unknown") (fun _ => Except.error "e")
        (Except.ok ("n", "u", "i")) "completed" "h" false).executedLocally
      = true
    ∧ (bipelinesProcessTask [] (fun _ => "unknown") (fun _ => Except.error "e")
        (Except.ok ("n", "u", "i")) "completed" "h" false).cacheAfter = []
    ∧ (bipelinesProcessTask
        (bipelinesProcessTask [] (fun _ => "unknown")
          (fun _ => Except.error "e") (Except.ok ("n", "u", "i")) "completed"
          "h" false).cacheAfter
        (fun _ => "unknown") (fun _ => Except.error "e")
        (Except.ok ("n", "u", "i")) "completed" "h" false).executedLocally
      = true :=
  ⟨by decide, by decide, by decide⟩

/-- C9 (amended): in the beaker_runner variant every fresh launch
appends the new experiment name to the in-memory lookup before the next
task is resolved, after which the identity's base name is present and a
later same-identity task resolves to a match (skip / hook / suffixed
retry) rather than being treated as new; the bipelines variant performs
no in-memory cache update after a launch. -/
theorem c9_amended_in_memory_index_update :
    (∀ (lookup : List String) (statusOf : String → String)
        (waitResult pfx task_hash : String),
      (runnerProcessTask lookup statusOf waitResult pfx task_hash
          false).launched = true →
      (runnerProcessTask lookup statusOf waitResult pfx task_hash
          false).lookupAfter
        = lookup ++ [next_experiment_name lookup pfx task_hash])
    ∧ (∀ (lookup : List String) (pfx task_hash : String),
        pfx ++ "-" ++ task_hash
            ∈ lookup ++ [next_experiment_name lookup pfx task_hash]
        ∧ (find_matching_experiment
            (lookup ++ [next_experiment_name lookup pfx task_hash])
            pfx task_hash).isSome = true)
    ∧ (∀ (cache : List (String × String)) (displayOf : String → String)
          (freshOf : String → Except String String)
          (execOutcome : Except String (String × String × String))
          (waitResult task_hash : String) (dry_run : Bool),
        (bipelinesProcessTask cache displayOf freshOf execOutcome waitResult
            task_hash dry_run).cacheAfter = cache) := by
  refine ⟨?_, ?_, ?_⟩
  · intro lookup statusOf waitResult pfx task_hash h
    simp only [runnerProcessTask] at h ⊢
    cases hm : find_matching_experiment lookup pfx task_hash with
    | none => rfl
    | some name =>
        rw [hm] at h
        simp only [] at h ⊢
        by_cases h1 : statusOf name = "completed"
        · rw [if_pos h1] at h; exact Bool.noConfusion h
        · rw [if_neg h1] at h ⊢
          by_cases h2 : statusOf name = "running"
          · rw [if_pos h2] at h; exact Bool.noConfusion h
          · rw [if_neg h2] at h ⊢; rfl
  · intro lookup pfx task_hash
    exact ⟨base_mem_after_launch lookup pfx task_hash,
      find_matching_isSome_of_base_mem _ pfx task_hash
        (base_mem_after_launch lookup pfx task_hash)⟩
  · intro cache displayOf freshOf execOutcome waitResult task_hash dry_run
    simp only [bipelinesProcessTask, bipelinesLaunchStep]
    split
    · split
      · rfl
      · split
        · rfl
        · split <;> rfl
    · split
      · rfl
      · split <;> rfl

/-- Witness for (amended) C9: one fresh launch from an empty lookup
appends `p-h`, and resolving the same identity again finds it. -/
theorem c9_amended_in_memory_index_update_witness :
    (runnerProcessTask [] (fun _ => "unknown") "completed" "p" "h"
        false).lookupAfter = [] ++ [next_experiment_name [] "p" "h"] :=
  c9_amended_in_memory_index_update.1 [] (fun _ => "unknown") "completed"
    "p" "h" (by decide)

end Spec2Proof
